import Mathlib

/-!
Verification development for the attribute/property reactivity engine
(decorators `@define`, `@attr`, `@prop`, `@reactive`, `@handle`, `@debounce`
together with the numeric attribute transformers).

The embedding models JS numbers as rationals extended with `NaN` and the two
infinities.  Every operation the engine performs on numbers (comparison,
clamping, truncation toward zero) is exact on this domain, so the model is
faithful for all properties considered here.  Strings are modelled by `JStr`:
`JStr.ofNum n` stands for the platform string `String(n)` (the platform
guarantees `Number(String(n)) = n` for every JS number `n`), and `JStr.lit s`
stands for any other literal string; literal strings consisting only of
decimal digits coerce to the corresponding number, the empty string coerces
to `0`, and all other literals coerce to `NaN` in the model (a real string
carrying any other numeric value is represented by `JStr.ofNum`).
-/

deriving instance DecidableEq for Except

namespace WCTS

/-- The JS number domain: rationals extended with NaN and the infinities. -/
inductive JSNum : Type
  | nan : JSNum
  | posInf : JSNum
  | negInf : JSNum
  | fin (q : ℚ) : JSNum
deriving DecidableEq, Repr

/-- JS `<=` on numbers: any comparison involving NaN is false. -/
def jle : JSNum → JSNum → Bool
  | .nan, _ => false
  | _, .nan => false
  | .negInf, _ => true
  | _, .negInf => false
  | _, .posInf => true
  | .posInf, _ => false
  | .fin q, .fin r => decide (q ≤ r)

/-- JS `<` on numbers: any comparison involving NaN is false. -/
def jlt : JSNum → JSNum → Bool
  | .nan, _ => false
  | _, .nan => false
  | .negInf, .negInf => false
  | .negInf, _ => true
  | _, .negInf => false
  | .posInf, _ => false
  | _, .posInf => true
  | .fin q, .fin r => decide (q < r)

/-- JS `>=`, defined by swapping `<=` as the engine only ever uses it so. -/
def jge (a b : JSNum) : Bool := jle b a

/-- JS `>`. -/
def jgt (a b : JSNum) : Bool := jlt b a

/-- Truncation toward zero on rationals, the behavior of `Math.trunc`. -/
def truncQ (q : ℚ) : ℚ := if 0 ≤ q then (⌊q⌋ : ℚ) else (⌈q⌉ : ℚ)

/-- `Math.trunc` on the full JS number domain. -/
def jsTrunc : JSNum → JSNum
  | .nan => .nan
  | .posInf => .posInf
  | .negInf => .negInf
  | .fin q => .fin (truncQ q)

/-- JS strings.  `ofNum n` is the platform string `String(n)`; `lit s` is any
other literal string. -/
inductive JStr : Type
  | ofNum (n : JSNum) : JStr
  | lit (s : String) : JStr
deriving DecidableEq, Repr

/-- JS values that can reach `parse`/`validate` (typed `unknown` there). -/
inductive JSVal : Type
  | num (n : JSNum) : JSVal
  | str (s : JStr) : JSVal
  | nullV : JSVal
  | undef : JSVal
  | boolV (b : Bool) : JSVal
deriving DecidableEq, Repr

/-- Coerce a list of decimal digits to a natural number, failing on any
non-digit character. -/
def digitsVal : List Char → Nat → Option Nat
  | [], acc => some acc
  | c :: rest, acc =>
    if c.isDigit then digitsVal rest (acc * 10 + (c.toNat - 48)) else none

/-- `Number(s)` for a literal string in the model: the empty string coerces to
`0`, digit strings coerce to their value, everything else to NaN. -/
def litToNum (s : String) : JSNum :=
  if s.data = [] then .fin 0
  else
    match digitsVal s.data 0 with
    | some n => .fin (n : ℚ)
    | none => .nan

/-- `Number(s)` on the string model.  `Number(String(n)) = n` is a platform
guarantee for every JS number `n`. -/
def strToNum : JStr → JSNum
  | .ofNum n => n
  | .lit s => litToNum s

/-- The JS `Number(value)` coercion on values. -/
def toNumber : JSVal → JSNum
  | .num n => n
  | .str s => strToNum s
  | .nullV => .fin 0
  | .undef => .nan
  | .boolV b => .fin (if b then 1 else 0)

/-- The platform `String(n)` conversion on numbers. -/
def numToStr (n : JSNum) : JStr := .ofNum n

/-- `string | null`, as returned by `getAttribute`, coerced into a value that
can be handed to `parse`. -/
def optToVal : Option JStr → JSVal
  | some s => .str s
  | none => .nullV

/-- The transformer contract from `attributeTransformers.ts`: `parse` turns
unknown input into a value and must never throw, `validate` (optional,
defaults to `parse`) may throw, `stringify` (optional, defaults to the
platform `String`) turns values into attribute text. -/
structure Transformer (V : Type) : Type where
  parse : JSVal → V
  validateOpt : Option (JSVal → Except String V)
  stringifyOpt : Option (V → JStr)

/-- `const validate = transformer.validate ?? transformer.parse` — the
effective validator; when absent it is the (total) `parse`. -/
def effValidate (t : Transformer V) : JSVal → Except String V :=
  match t.validateOpt with
  | some f => f
  | none => fun v => .ok (t.parse v)

/-- `const stringify = transformer.stringify ?? String` — the effective
stringifier; `defStr` models the platform `String` coercion at type `V`. -/
def effStringify (t : Transformer V) (defStr : V → JStr) : V → JStr :=
  match t.stringifyOpt with
  | some f => f
  | none => defStr

/-- `validateNumber(min, max)` from `attributeTransformers.ts`: coerce with
`Number`, throw on NaN, throw when out of `[min, max]`, else return the
number.  (Message text is abbreviated; the source interpolates the values.) -/
def validateNumber (min max : JSNum) (value : JSVal) : Except String JSNum :=
  let asNumber := toNumber value
  if asNumber = .nan then
    .error "input cannot be converted to a number"
  else if jlt asNumber min || jgt asNumber max then
    .error "input is out of range"
  else
    .ok asNumber

/-- The `number({min, max})` transformer: `parse` clamps (`<= min` returns
`min`, `>= max` returns `max`), `validate` is `validateNumber`, `stringify`
is `String`. -/
def numberT (min max : JSNum) : Transformer JSNum where
  parse value :=
    let asNumber := toNumber value
    if jle asNumber min then min
    else if jge asNumber max then max
    else asNumber
  validateOpt := some (validateNumber min max)
  stringifyOpt := some numToStr

/-- The `int({min, max})` transformer: like `number` but every returned value
passes through `Math.trunc`. -/
def intT (min max : JSNum) : Transformer JSNum where
  parse value :=
    let asNumber := toNumber value
    if jle asNumber min then jsTrunc min
    else if jge asNumber max then jsTrunc max
    else jsTrunc asNumber
  validateOpt := some (validateNumber min max)
  stringifyOpt := some numToStr

/-- `jle min v && jle v max`: membership of `v` in the closed range. -/
def inBounds (min max v : JSNum) : Bool := jle min v && jle v max

/-! ## The element, attribute map and reactivity bus -/

/-- Look up an attribute on the attribute list (`getAttribute`, `null` when
absent). -/
def getAttr : List (String × JStr) → String → Option JStr
  | [], _ => none
  | (k, v) :: rest, name => if k = name then some v else getAttr rest name

/-- Write an attribute on the attribute list (`setAttribute`). -/
def setAttrL : List (String × JStr) → String → JStr → List (String × JStr)
  | [], name, value => [(name, value)]
  | (k, v) :: rest, name, value =>
    if k = name then (name, value) :: rest
    else (k, v) :: setAttrL rest name value

/-- The observable per-member state of a host element: the stored in-memory
value behind the accessor and the element attribute list. -/
structure Elem (V : Type) : Type where
  stored : V
  attrs : List (String × JStr)
deriving DecidableEq, Repr

/-- The shared reactivity bus of `enqueueReactivityEvent`: the pending `Set`
of changed elements (insertion-ordered, identity-deduplicated, elements named
by numeric ids) and whether an animation-frame dispatch is outstanding. -/
structure Bus : Type where
  pending : List Nat
  scheduled : Bool
deriving DecidableEq, Repr

/-- `enqueueReactivityEvent(target)`: add the target to the pending set (a JS
`Set` ignores a re-insert) and make sure a flush is scheduled. -/
def busAdd (b : Bus) (id : Nat) : Bus where
  pending := if id ∈ b.pending then b.pending else b.pending ++ [id]
  scheduled := true

/-- Effects emitted by one run of the replacement `set`. -/
inductive Eff (V : Type) : Type
  | storeE (v : V) : Eff V
  | setAttrE (name : String) (value : JStr) : Eff V
  | enqueueE (id : Nat) : Eff V
deriving DecidableEq, Repr

/-- Static configuration of one `@attr`-augmented member: backing attribute
name, the `reflective` option (`options.reflective !== false`), the
transformer, and the platform `String` coercion at type `V` (used when the
transformer supplies no `stringify`). -/
structure AttrCfg (V : Type) : Type where
  name : String
  reflective : Bool
  t : Transformer V
  defStr : V → JStr

/-- The replacement `set(input)` of `@attr`, executed statement by statement:
`validate` the input (a throw leaves the state exactly as it was at the throw
point and yields the error), then store, then — when reflective — stringify
and reflect into the attribute, then enqueue a reactivity event.  The third
component records the effects performed. -/
def attrSetStep (cfg : AttrCfg V) (st : Elem V × Bus) (id : Nat)
    (input : JSVal) : (Elem V × Bus) × Option String × List (Eff V) :=
  match effValidate cfg.t input with
  | .error m => (st, some m, [])
  | .ok newValue =>
    let e1 : Elem V := { st.1 with stored := newValue }
    if cfg.reflective then
      let text := effStringify cfg.t cfg.defStr newValue
      (({ e1 with attrs := setAttrL e1.attrs cfg.name text }, busAdd st.2 id),
       none,
       [.storeE newValue, .setAttrE cfg.name text, .enqueueE id])
    else
      ((e1, busAdd st.2 id), none, [.storeE newValue, .enqueueE id])

/-- The `init(input)` of `@attr`: if the backing attribute currently has a
value, parse and use it; otherwise validate the declared default. -/
def attrInit (cfg : AttrCfg V) (attrs : List (String × JStr))
    (input : JSVal) : Except String V :=
  match getAttr attrs cfg.name with
  | some attrValue => .ok (cfg.t.parse (.str attrValue))
  | none => effValidate cfg.t input

/-- An external mutation of the backing attribute to `value`, together with
the MutationObserver reaction that `@attr` attaches for reflective members
only: the observer reads the current attribute, and when it differs from the
recorded old value it stores `parse` of it and enqueues a reactivity event.
For a non-reflective member no observer was attached, so only the attribute
text changes. -/
def externalAttrWrite (cfg : AttrCfg V) (e : Elem V) (bus : Bus) (id : Nat)
    (value : JStr) : Elem V × Bus :=
  let oldValue := getAttr e.attrs cfg.name
  let e1 : Elem V := { e with attrs := setAttrL e.attrs cfg.name value }
  if cfg.reflective then
    let newValue := getAttr e1.attrs cfg.name
    if newValue ≠ oldValue then
      ({ e1 with stored := cfg.t.parse (optToVal newValue) }, busAdd bus id)
    else (e1, bus)
  else (e1, bus)

/-! ## The `@define` attribute-change dispatcher -/

/-- Static configuration captured by `@define`: whether the class had its own
`attributeChangedCallback`, and the original `observedAttributes` snapshot. -/
structure DefineCfg : Type where
  hasOriginal : Bool
  originalObserved : List String
deriving DecidableEq, Repr

/-- What the wrapped `attributeChangedCallback` does, as an effect trace. -/
inductive AccEff : Type
  | callOriginal (name : String) (oldValue newValue : Option JStr) : AccEff
  | callAttrHandler (name : String) (newValue : Option JStr) : AccEff
deriving DecidableEq, Repr

/-- Is the effect an invocation of the pre-existing callback? -/
def isOriginalCall : AccEff → Bool
  | .callOriginal _ _ _ => true
  | .callAttrHandler _ _ => false

/-- The wrapped `attributeChangedCallback(name, oldValue, newValue)` installed
by `@define`: call a pre-existing callback first when the attribute is one it
declared (`originalObservedAttributes.has(name)`); then, if old and new
values are identical, stop; otherwise invoke the `@attr` change handler
registered for that attribute on this instance, if any.  `handlers` is the
set of attribute names with a registered `@attr` handler. -/
def accEffects (cfg : DefineCfg) (handlers : List String) (name : String)
    (oldValue newValue : Option JStr) : List AccEff :=
  (if cfg.hasOriginal ∧ name ∈ cfg.originalObserved then
    [AccEff.callOriginal name oldValue newValue]
   else []) ++
  (if oldValue = newValue then []
   else if name ∈ handlers then [AccEff.callAttrHandler name newValue]
   else [])

/-! ## The coalescing reactivity bus across one scheduling tick -/

/-- Update an id-keyed store (the stored values of all live elements). -/
def updAssoc : List (Nat × V) → Nat → V → List (Nat × V)
  | [], id, v => [(id, v)]
  | (k, w) :: rest, id, v =>
    if k = id then (id, v) :: rest else (k, w) :: updAssoc rest id v

/-- Read an id-keyed store. -/
def lookupA : List (Nat × V) → Nat → Option V
  | [], _ => none
  | (k, w) :: rest, id => if k = id then some w else lookupA rest id

/-- The world visible to the bus: every element's stored value, plus the bus
state. -/
structure World (V : Type) : Type where
  vals : List (Nat × V)
  bus : Bus
deriving DecidableEq, Repr

/-- One successful property write to element `id`: store the value and
enqueue a reactivity event (the common tail of the `@attr` and `@prop`
setters). -/
def writeStep (w : World V) (id : Nat) (v : V) : World V where
  vals := updAssoc w.vals id v
  bus := busAdd w.bus id

/-- A sequence of successful synchronous writes to the same element within
one scheduling tick. -/
def writeSeq (w : World V) (id : Nat) : List V → World V
  | [] => w
  | v :: rest => writeSeq (writeStep w id v) id rest

/-- The animation-frame flush, seen by the subscriber for element `sub`: the
bus dispatches one reactivity event per entry of the pending set, the
subscriber's listener fires on events whose source is `sub`, and the reaction
re-reads the currently stored value at that moment. -/
def flushCalls (w : World V) (sub : Nat) : List (Option V) :=
  (w.bus.pending.filter (fun t => t == sub)).map (fun _ => lookupA w.vals sub)

/-! ## The `@debounce` wrapper over virtual time -/

/-- Run the debounced wrapper over a chronologically ordered list of calls
`(time, argument)`.  `pending` is the outstanding timer: its fire time and
the argument it would deliver.  A timer due no later than the next call fires
first (delivering one underlying invocation); a call while a timer is still
pending clears that timer; every call arms a fresh timer `delay` later with
its own argument; after the last call the surviving timer fires.  Returns the
list of underlying invocations `(time, argument)`. -/
def debounceLoop (delay : Nat) :
    Option (Nat × A) → List (Nat × A) → List (Nat × A)
  | some p, [] => [p]
  | none, [] => []
  | some (tf, af), (t, a) :: rest =>
    if tf ≤ t then (tf, af) :: debounceLoop delay (some (t + delay, a)) rest
    else debounceLoop delay (some (t + delay, a)) rest
  | none, (t, a) :: rest => debounceLoop delay (some (t + delay, a)) rest

/-- A burst for delay `delay`: calls in strictly increasing time order, each
arriving before the previous call's timer would fire. -/
def burst (delay : Nat) : List (Nat × A) → Bool
  | [] => true
  | [_] => true
  | (t1, _) :: (t2, a2) :: rest =>
    t1 < t2 && t2 < t1 + delay && burst delay ((t2, a2) :: rest)

/-! ## Concrete configurations used by the scenario checks -/

/-- The scenario member of the spec: an int attribute `value` bounded
`[0, 9000]`, reflective. -/
def exampleCfg : AttrCfg JSNum where
  name := "value"
  reflective := true
  t := intT (.fin 0) (.fin 9000)
  defStr := numToStr

/-- A reflective `number`-backed member bounded `[0, 100]`. -/
def reflCfg : AttrCfg JSNum where
  name := "value"
  reflective := true
  t := numberT (.fin 0) (.fin 100)
  defStr := numToStr

/-- The same member with `reflective: false`. -/
def plainCfg : AttrCfg JSNum where
  name := "value"
  reflective := false
  t := numberT (.fin 0) (.fin 100)
  defStr := numToStr

/-! ## Order lemmas for the JS number domain -/

theorem jle_left_not_nan {a b : JSNum} (h : jle a b = true) : a ≠ .nan := by
  cases a <;> cases b <;> simp_all [jle]

theorem jle_right_not_nan {a b : JSNum} (h : jle a b = true) : b ≠ .nan := by
  cases a <;> cases b <;> simp_all [jle]

theorem jlt_left_not_nan {a b : JSNum} (h : jlt a b = true) : a ≠ .nan := by
  cases a <;> cases b <;> simp_all [jlt]

theorem jlt_right_not_nan {a b : JSNum} (h : jlt a b = true) : b ≠ .nan := by
  cases a <;> cases b <;> simp_all [jlt]

theorem jle_refl_of_not_nan {a : JSNum} (h : a ≠ .nan) : jle a a = true := by
  cases a <;> simp_all [jle]

theorem jle_of_jlt {a b : JSNum} (h : jlt a b = true) : jle a b = true := by
  cases a <;> cases b <;> simp_all [jlt, jle] <;> exact le_of_lt h

theorem jlt_of_jle_of_jlt {a b c : JSNum} (h1 : jle a b = true)
    (h2 : jlt b c = true) : jlt a c = true := by
  cases a <;> cases b <;> cases c <;> simp_all [jlt, jle] <;>
    exact lt_of_le_of_lt h1 h2

theorem jle_eq_false_of_jlt {a b : JSNum} (h : jlt a b = true) :
    jle b a = false := by
  cases a <;> cases b <;> simp_all [jlt, jle]

theorem jle_antisymm {a b : JSNum} (h1 : jle a b = true)
    (h2 : jle b a = true) : a = b := by
  cases a <;> cases b <;> simp_all [jle] <;> exact le_antisymm h1 h2

theorem jlt_of_jle_eq_false {a b : JSNum} (ha : a ≠ .nan) (hb : b ≠ .nan)
    (h : jle a b = false) : jlt b a = true := by
  cases a <;> cases b <;> simp_all [jle, jlt]

/-! ## Truncation lemmas -/

theorem truncQ_intCast (k : ℤ) : truncQ (k : ℚ) = (k : ℚ) := by
  unfold truncQ
  split <;> simp

theorem truncQ_eq_int (q : ℚ) : ∃ k : ℤ, truncQ q = (k : ℚ) := by
  unfold truncQ
  split
  · exact ⟨⌊q⌋, rfl⟩
  · exact ⟨⌈q⌉, rfl⟩

theorem truncQ_idem (q : ℚ) : truncQ (truncQ q) = truncQ q := by
  obtain ⟨k, hk⟩ := truncQ_eq_int q
  rw [hk, truncQ_intCast]

theorem le_truncQ {k : ℤ} {q : ℚ} (h : (k : ℚ) ≤ q) : (k : ℚ) ≤ truncQ q := by
  unfold truncQ
  split
  · exact_mod_cast Int.le_floor.mpr h
  · exact le_trans h (Int.le_ceil q)

theorem truncQ_le {k : ℤ} {q : ℚ} (h : q ≤ (k : ℚ)) : truncQ q ≤ (k : ℚ) := by
  unfold truncQ
  split
  · exact le_trans (Int.floor_le q) h
  · exact_mod_cast Int.ceil_le.mpr h

theorem jsTrunc_not_nan {n : JSNum} (h : n ≠ .nan) : jsTrunc n ≠ .nan := by
  cases n <;> simp_all [jsTrunc]

theorem jsTrunc_idem (n : JSNum) : jsTrunc (jsTrunc n) = jsTrunc n := by
  cases n <;> simp [jsTrunc, truncQ_idem]

theorem jle_jsTrunc {m n : JSNum} (hm : jsTrunc m = m) (h : jle m n = true) :
    jle m (jsTrunc n) = true := by
  cases m <;> cases n <;> simp_all [jsTrunc, jle]
  rename_i mq q
  obtain ⟨k, hk⟩ := truncQ_eq_int mq
  rw [hm] at hk
  rw [hk] at h ⊢
  exact le_truncQ h

theorem jsTrunc_jle {n M : JSNum} (hM : jsTrunc M = M) (h : jle n M = true) :
    jle (jsTrunc n) M = true := by
  cases n <;> cases M <;> simp_all [jsTrunc, jle]
  rename_i q Mq
  obtain ⟨k, hk⟩ := truncQ_eq_int Mq
  rw [hM] at hk
  rw [hk] at h ⊢
  exact truncQ_le h

/-! ## Store, bus and debounce lemmas -/

theorem lookupA_updAssoc {V : Type} (l : List (Nat × V)) (id : Nat) (v : V) :
    lookupA (updAssoc l id v) id = some v := by
  induction l with
  | nil => simp [updAssoc, lookupA]
  | cons p rest ih =>
    obtain ⟨k, w⟩ := p
    by_cases h : k = id
    · simp [updAssoc, h, lookupA]
    · simp [updAssoc, h, lookupA, ih]

theorem writeSeq_lookup {V : Type} (vs : List V) :
    ∀ (w : World V) (id : Nat) (v : V),
    lookupA (writeSeq (writeStep w id v) id vs).vals id =
      some (vs.getLastD v) := by
  induction vs with
  | nil =>
    intro w id v
    simp [writeSeq, writeStep, lookupA_updAssoc]
  | cons v2 rest ih =>
    intro w id v
    rw [show writeSeq (writeStep w id v) id (v2 :: rest) =
      writeSeq (writeStep (writeStep w id v) id v2) id rest from rfl]
    rw [ih, List.getLastD_cons]

theorem writeSeq_pending_of_mem {V : Type} (vs : List V) :
    ∀ (w : World V) (id : Nat), id ∈ w.bus.pending →
    (writeSeq w id vs).bus.pending = w.bus.pending := by
  induction vs with
  | nil =>
    intro w id _
    rfl
  | cons v rest ih =>
    intro w id h
    have hstep : (writeStep w id v).bus.pending = w.bus.pending := by
      simp [writeStep, busAdd, h]
    rw [show writeSeq w id (v :: rest) =
      writeSeq (writeStep w id v) id rest from rfl]
    rw [ih _ id (by rw [hstep]; exact h), hstep]

theorem filter_beq_nil {l : List Nat} {e : Nat} (h : e ∉ l) :
    l.filter (fun t => t == e) = [] := by
  induction l with
  | nil => rfl
  | cons a rest ih =>
    have h1 : ¬(a = e) := fun hc => h (hc ▸ List.mem_cons_self a rest)
    have h2 : e ∉ rest := fun hc => h (List.mem_cons_of_mem a hc)
    simp [List.filter_cons, h1, ih h2]

theorem debounce_pending_burst {A : Type} (delay : Nat)
    (cs : List (Nat × A)) :
    ∀ (t : Nat) (a : A), burst delay ((t, a) :: cs) = true →
    debounceLoop delay (some (t + delay, a)) cs =
      [((cs.getLastD (t, a)).1 + delay, (cs.getLastD (t, a)).2)] := by
  induction cs with
  | nil =>
    intro t a _
    simp [debounceLoop, List.getLastD]
  | cons c rest ih =>
    intro t a h
    obtain ⟨t2, b⟩ := c
    have hb : (t < t2 ∧ t2 < t + delay) ∧
        burst delay ((t2, b) :: rest) = true := by
      simpa [burst, Bool.and_eq_true, decide_eq_true_eq, and_assoc]
        using h
    rw [show debounceLoop delay (some (t + delay, a)) ((t2, b) :: rest) =
        if t + delay ≤ t2 then
          (t + delay, a) :: debounceLoop delay (some (t2 + delay, b)) rest
        else debounceLoop delay (some (t2 + delay, b)) rest from rfl]
    rw [if_neg (by omega)]
    rw [ih t2 b hb.2, List.getLastD_cons]

/-! ## Claim theorems -/

/-- C2: N >= 1 successful synchronous writes to the same host object within
one scheduling tick (the pending set does not hold the object yet) produce
exactly one reaction-callback invocation at the next animation-frame flush,
and that invocation observes the value stored by the last of the writes,
never an intermediate value. -/
theorem reactive_coalesces_to_last_write {V : Type} (w : World V) (e : Nat)
    (v : V) (vs : List V) (h : e ∉ w.bus.pending) :
    flushCalls (writeSeq w e (v :: vs)) e =
      [some ((v :: vs).getLastD v)] := by
  have hpend1 : (writeStep w e v).bus.pending = w.bus.pending ++ [e] := by
    simp [writeStep, busAdd, h]
  have hmem : e ∈ (writeStep w e v).bus.pending := by
    rw [hpend1]
    simp
  have hpend : (writeSeq w e (v :: vs)).bus.pending =
      w.bus.pending ++ [e] := by
    rw [show writeSeq w e (v :: vs) = writeSeq (writeStep w e v) e vs
      from rfl, writeSeq_pending_of_mem vs _ e hmem, hpend1]
  unfold flushCalls
  rw [hpend, List.filter_append, filter_beq_nil h]
  rw [show writeSeq w e (v :: vs) = writeSeq (writeStep w e v) e vs
    from rfl]
  rw [List.getLastD_cons]
  simp [List.filter_cons, writeSeq_lookup]

/-- C2 witness: three synchronous writes `1, 2, 3` to element `0` in one
tick yield exactly one reaction invocation, observing `3`. -/
theorem reactive_coalesces_witness :
    flushCalls (writeSeq (⟨[(0, JSNum.fin 0)], ⟨[], false⟩⟩ : World JSNum) 0
      [.fin 1, .fin 2, .fin 3]) 0 = [some (.fin 3)] := by
  have h := reactive_coalesces_to_last_write
    (⟨[(0, JSNum.fin 0)], ⟨[], false⟩⟩ : World JSNum) 0 (.fin 1)
    [.fin 2, .fin 3] (by decide)
  exact h.trans (by decide)

/-- C9: any burst of calls to the debounced wrapper — strictly increasing
call times, each call arriving before the previous call's timer would have
fired, so that it cancels the pending timer — ends with exactly one
invocation of the underlying function, at the last call's time plus the
delay, with the last call's argument; in particular there is never a
leading-edge invocation. -/
theorem debounce_trailing_edge {A : Type} (delay : Nat) (c : Nat × A)
    (cs : List (Nat × A)) (h : burst delay (c :: cs) = true) :
    debounceLoop delay none (c :: cs) =
      [(((c :: cs).getLastD c).1 + delay, ((c :: cs).getLastD c).2)] := by
  obtain ⟨t, a⟩ := c
  rw [show debounceLoop delay none ((t, a) :: cs) =
      debounceLoop delay (some (t + delay, a)) cs from rfl]
  rw [debounce_pending_burst delay cs t a h, List.getLastD_cons]

/-- C9 witness: with a 50ms delay and calls at t = 0, 10, 20 carrying
arguments a, b, c, the wrapped function runs exactly once, at t = 70, with
argument c. -/
theorem debounce_trailing_edge_witness :
    debounceLoop 50 none [(0, "a"), (10, "b"), (20, "c")] = [(70, "c")] := by
  have h := debounce_trailing_edge 50 (0, "a") [(10, "b"), (20, "c")]
    (by decide)
  exact h.trans (by decide)

/-- C1: whenever the transformer's validate throws on the input, the
replacement `set` of `@attr` propagates the validation error, leaves the
stored in-memory value, the reflected attribute list and the reactivity
queue exactly as they were, and performs no effect at all. -/
theorem attr_set_rejected_write_preserves_state {V : Type}
    (cfg : AttrCfg V) (st : Elem V × Bus) (id : Nat) (input : JSVal)
    (m : String) (h : effValidate cfg.t input = .error m) :
    attrSetStep cfg st id input = (st, some m, []) := by
  simp [attrSetStep, h]

/-- C1 witness: with the int transformer bounded `[0, 9000]` and current
value `42`, the write of `9001` throws and every piece of state, the stored
`42` and the attribute text included, is retained; nothing is enqueued. -/
theorem attr_set_rejected_write_witness :
    attrSetStep exampleCfg
      (⟨.fin 42, [("value", .ofNum (.fin 42))]⟩, ⟨[], false⟩) 0
      (.num (.fin 9001)) =
      ((⟨.fin 42, [("value", .ofNum (.fin 42))]⟩, ⟨[], false⟩),
       some "input is out of range", []) :=
  attr_set_rejected_write_preserves_state exampleCfg _ 0 _ _ (by decide)

/-- C4: the per-instance initializer returns `parse` of the attribute text
whenever the backing attribute is present on the host at construction (the
attribute wins over the declared default, and this path yields `.ok`, never
an error), and otherwise validates the declared default, which may throw. -/
theorem attr_init_attribute_wins {V : Type} (cfg : AttrCfg V)
    (attrs : List (String × JStr)) (input : JSVal) :
    (∀ a, getAttr attrs cfg.name = some a →
        attrInit cfg attrs input = .ok (cfg.t.parse (.str a))) ∧
    (getAttr attrs cfg.name = none →
        attrInit cfg attrs input = effValidate cfg.t input) := by
  constructor
  · intro a h
    simp [attrInit, h]
  · intro h
    simp [attrInit, h]

/-- C4 witness: constructed with the attribute text `"42"` present, the
initial value of the `[0, 9000]` int member is `42`, whatever the declared
default was. -/
theorem attr_init_attribute_wins_witness :
    attrInit exampleCfg [("value", .lit "42")] (.num (.fin 0)) =
      .ok (.fin 42) := by
  have h := (attr_init_attribute_wins exampleCfg [("value", .lit "42")]
    (.num (.fin 0))).1 (.lit "42") (by decide)
  exact h.trans (by decide)

/-- C5: with a pre-existing attribute-change callback whose class declared
interest in attribute `x`, and an augmentation registered for a different
attribute `y` outside the original observed list, every dispatch for `x`
invokes the original callback first, and no dispatch for `y` ever invokes
the original callback. -/
theorem acc_original_callback_dispatch (cfg : DefineCfg)
    (handlers : List String) (x y : String)
    (hc : cfg.hasOriginal = true) (hx : x ∈ cfg.originalObserved)
    (hy : y ∉ cfg.originalObserved) :
    (∀ oldV newV, ∃ rest,
        accEffects cfg handlers x oldV newV =
          AccEff.callOriginal x oldV newV :: rest) ∧
    (∀ oldV newV ef, ef ∈ accEffects cfg handlers y oldV newV →
        isOriginalCall ef = false) := by
  constructor
  · intro oldV newV
    refine ⟨(if oldV = newV then [] else if x ∈ handlers then
        [AccEff.callAttrHandler x newV] else []), ?_⟩
    simp [accEffects, hc, hx]
  · intro oldV newV ef hm
    by_cases h1 : oldV = newV <;> by_cases h2 : y ∈ handlers <;>
      simp [accEffects, hy, h1, h2] at hm <;>
      simp [hm, isOriginalCall]

/-- C5 witness: class observing `"x"` with its own callback, augmentation
handler registered for `"y"`: a dispatch for `"x"` begins with the original
callback, and the dispatch for `"y"` contains no original-callback call. -/
theorem acc_original_callback_dispatch_witness :
    (∃ rest, accEffects ⟨true, ["x"]⟩ ["y"] "x" none (some (.lit "1")) =
        AccEff.callOriginal "x" none (some (.lit "1")) :: rest) ∧
    (∀ ef, ef ∈ accEffects ⟨true, ["x"]⟩ ["y"] "y" none (some (.lit "1")) →
        isOriginalCall ef = false) := by
  have h := acc_original_callback_dispatch ⟨true, ["x"]⟩ ["y"] "x" "y" rfl
    (by decide) (by decide)
  exact ⟨h.1 none (some (.lit "1")), h.2 none (some (.lit "1"))⟩

/-- C10: with `reflective: false`, a successful set still validates, stores
the value and enqueues a reactivity event but never writes the attribute; an
external attribute mutation changes only the attribute text, since no
observer was attached, so nothing propagates back to the property; and an
attribute present at construction still seeds the initial value via init. -/
theorem attr_non_reflective_frame {V : Type} (cfg : AttrCfg V) (e : Elem V)
    (bus : Bus) (id : Nat) (input : JSVal) (v : V) (value : JStr)
    (hr : cfg.reflective = false) :
    (effValidate cfg.t input = .ok v →
      attrSetStep cfg (e, bus) id input =
        ((⟨v, e.attrs⟩, busAdd bus id), none,
         [.storeE v, .enqueueE id])) ∧
    externalAttrWrite cfg e bus id value =
      ({ e with attrs := setAttrL e.attrs cfg.name value }, bus) ∧
    (∀ a, getAttr e.attrs cfg.name = some a →
      attrInit cfg e.attrs input = .ok (cfg.t.parse (.str a))) := by
  refine ⟨?_, ?_, ?_⟩
  · intro h
    simp [attrSetStep, h, hr]
  · simp [externalAttrWrite, hr]
  · intro a h
    simp [attrInit, h]

/-- C10 witness: on the non-reflective `[0, 100]` number member, a write of
`5` stores and enqueues without touching the attribute text `"3"`; an
external rewrite of the attribute to `"7"` leaves the stored value and the
queue alone; and the attribute text `"3"` still seeds init with `3`. -/
theorem attr_non_reflective_frame_witness :
    attrSetStep plainCfg
      (⟨.fin 0, [("value", .lit "3")]⟩, ⟨[], false⟩) 0 (.num (.fin 5)) =
      ((⟨.fin 5, [("value", .lit "3")]⟩, ⟨[0], true⟩), none,
       [.storeE (.fin 5), .enqueueE 0]) ∧
    externalAttrWrite plainCfg ⟨.fin 0, [("value", .lit "3")]⟩ ⟨[], false⟩ 0
      (.lit "7") = (⟨.fin 0, [("value", .lit "7")]⟩, ⟨[], false⟩) ∧
    attrInit plainCfg [("value", .lit "3")] (.num (.fin 5)) =
      .ok (.fin 3) := by
  have h := attr_non_reflective_frame plainCfg
    ⟨.fin 0, [("value", .lit "3")]⟩ ⟨[], false⟩ 0 (.num (.fin 5)) (.fin 5)
    (.lit "7") rfl
  refine ⟨(h.1 (by decide)).trans (by decide), h.2.1.trans (by decide),
    (h.2.2 (.lit "3") (by decide)).trans (by decide)⟩

/-- C3: the dedupe asymmetry.  At the property layer, a reflective set with
a value equal to the currently stored one still performs the stringify,
reflect and enqueue steps — two identical writes in a row each emit the full
store, reflect, enqueue effect list — while at the attribute layer a change
dispatch whose old and new texts coincide performs no handler work at all
(no parse, no store, no reactivity event). -/
theorem dedupe_asymmetry {V : Type} (cfg : AttrCfg V) (e : Elem V)
    (bus : Bus) (id : Nat) (i1 i2 : JSVal) (v : V)
    (hr : cfg.reflective = true)
    (h1 : effValidate cfg.t i1 = .ok v)
    (h2 : effValidate cfg.t i2 = .ok v) :
    ((attrSetStep cfg (e, bus) id i1).2.2 =
      [.storeE v, .setAttrE cfg.name (effStringify cfg.t cfg.defStr v),
       .enqueueE id]) ∧
    ((attrSetStep cfg (attrSetStep cfg (e, bus) id i1).1 id i2).2.2 =
      [.storeE v, .setAttrE cfg.name (effStringify cfg.t cfg.defStr v),
       .enqueueE id]) ∧
    (∀ (dcfg : DefineCfg) (handlers : List String) (name : String)
        (txt : Option JStr) (ef : AccEff),
        ef ∈ accEffects dcfg handlers name txt txt →
        isOriginalCall ef = true) := by
  refine ⟨?_, ?_, ?_⟩
  · simp [attrSetStep, h1, hr]
  · simp [attrSetStep, h1, h2, hr]
  · intro dcfg handlers name txt ef hm
    by_cases hd : dcfg.hasOriginal ∧ name ∈ dcfg.originalObserved <;>
      simp [accEffects, hd] at hm <;>
      simp [hm, isOriginalCall]

/-- C6: for the number transformer with bounds `[min, max]`: any input whose
numeric coercion is below `min` parses to `min`, any input above `max`
parses to `max`, and either kind of out-of-range input makes validate throw
a descriptive error. -/
theorem number_clamp_and_validate (min max : JSNum) (v : JSVal)
    (hb : jle min max = true) :
    (jlt (toNumber v) min = true → (numberT min max).parse v = min) ∧
    (jgt (toNumber v) max = true → (numberT min max).parse v = max) ∧
    (jlt (toNumber v) min = true ∨ jgt (toNumber v) max = true →
      ∃ m, validateNumber min max v = .error m) := by
  refine ⟨?_, ?_, ?_⟩
  · intro h
    simp [numberT, jle_of_jlt h]
  · intro h
    have hgt : jlt max (toNumber v) = true := h
    have hmin : jlt min (toNumber v) = true := jlt_of_jle_of_jlt hb hgt
    have hlow : jle (toNumber v) min = false := jle_eq_false_of_jlt hmin
    simp [numberT, hlow, jge, jle_of_jlt hgt]
  · intro h
    have hnn : toNumber v ≠ .nan := by
      cases h with
      | inl h => exact jlt_left_not_nan h
      | inr h => exact jlt_right_not_nan h
    cases h with
    | inl h =>
      exact ⟨"input is out of range", by simp [validateNumber, hnn, h]⟩
    | inr h =>
      exact ⟨"input is out of range", by simp [validateNumber, hnn, h]⟩

/-- C6 witness: with bounds `[0, 9000]`, `-5` parses to `0`, `9001` parses
to `9000`, and `9001` makes validate throw. -/
theorem number_clamp_and_validate_witness :
    (numberT (.fin 0) (.fin 9000)).parse (.num (.fin (-5))) = .fin 0 ∧
    (numberT (.fin 0) (.fin 9000)).parse (.num (.fin 9001)) = .fin 9000 ∧
    (∃ m, validateNumber (.fin 0) (.fin 9000) (.num (.fin 9001)) =
      .error m) := by
  have h1 := number_clamp_and_validate (.fin 0) (.fin 9000)
    (.num (.fin (-5))) (by decide)
  have h2 := number_clamp_and_validate (.fin 0) (.fin 9000)
    (.num (.fin 9001)) (by decide)
  exact ⟨h1.1 (by decide), h2.2.1 (by decide), h2.2.2 (Or.inr (by decide))⟩

/-- C7 (amended): parse after stringify is the identity on every in-bounds
value for the number transformer, and on every in-bounds value that is
already an integer for the int transformer; a non-integer in-bounds value is
truncated by int's parse, so the round trip fails there (see the
counterexample). -/
theorem parse_stringify_roundtrip (min max v : JSNum)
    (hv : inBounds min max v = true) :
    (numberT min max).parse
        (.str (effStringify (numberT min max) numToStr v)) = v ∧
    (jsTrunc v = v →
      (intT min max).parse
          (.str (effStringify (intT min max) numToStr v)) = v) := by
  have hv' : jle min v = true ∧ jle v max = true := by
    simpa [inBounds] using hv
  obtain ⟨hmin, hmax⟩ := hv'
  constructor
  · have hparse : (numberT min max).parse
        (.str (effStringify (numberT min max) numToStr v)) =
        if jle v min then min else if jge v max then max else v := rfl
    rw [hparse]
    by_cases hle : jle v min = true
    · rw [if_pos hle]
      exact jle_antisymm hmin hle
    · rw [if_neg hle]
      by_cases hge : jge v max = true
      · rw [if_pos hge]
        exact jle_antisymm hge hmax
      · rw [if_neg hge]
  · intro hint
    have hparse : (intT min max).parse
        (.str (effStringify (intT min max) numToStr v)) =
        if jle v min then jsTrunc min
        else if jge v max then jsTrunc max else jsTrunc v := rfl
    rw [hparse]
    by_cases hle : jle v min = true
    · rw [if_pos hle]
      have hEq : min = v := jle_antisymm hmin hle
      rw [hEq]
      exact hint
    · rw [if_neg hle]
      by_cases hge : jge v max = true
      · rw [if_pos hge]
        have hEq : max = v := jle_antisymm hge hmax
        rw [hEq]
        exact hint
      · rw [if_neg hge]
        exact hint

/-- C7 counterexample: `3/2` is accepted by validate for the int bounds
`[0, 9000]` (it is a valid numeric input within the bounds, so a program can
store it), yet int's parse applied to its stringification yields `1`, not
`3/2` — the round trip fails on the int transformer as soon as the valid
input is not an integer. -/
theorem parse_stringify_roundtrip_counterexample :
    validateNumber (.fin 0) (.fin 9000) (.num (.fin (mkRat 3 2))) =
      .ok (.fin (mkRat 3 2)) ∧
    inBounds (.fin 0) (.fin 9000) (.fin (mkRat 3 2)) = true ∧
    (intT (.fin 0) (.fin 9000)).parse
        (.str (effStringify (intT (.fin 0) (.fin 9000)) numToStr
          (.fin (mkRat 3 2)))) = .fin 1 ∧
    JSNum.fin 1 ≠ .fin (mkRat 3 2) := by
  decide

/-- C7 witness: the in-bounds integer `5` round-trips through stringify and
parse on both the number and the int transformer with bounds `[0, 9000]`. -/
theorem parse_stringify_roundtrip_witness :
    (numberT (.fin 0) (.fin 9000)).parse
        (.str (effStringify (numberT (.fin 0) (.fin 9000)) numToStr
          (.fin 5))) = .fin 5 ∧
    (intT (.fin 0) (.fin 9000)).parse
        (.str (effStringify (intT (.fin 0) (.fin 9000)) numToStr
          (.fin 5))) = .fin 5 := by
  have h := parse_stringify_roundtrip (.fin 0) (.fin 9000) (.fin 5)
    (by decide)
  exact ⟨h.1, h.2 (by decide)⟩

/-- C8 (amended): the numeric parses are total functions (they are written
without any throw, so attribute-sourced values never throw); an input whose
numeric coercion is NaN passes through as NaN rather than being clamped
(see the counterexample), but every input coercing to an actual number is
clamped into `[min, max]`, and for the int transformer with integral bounds
the result is moreover an integer. -/
theorem parse_total_clamps (min max : JSNum) (v : JSVal)
    (hb : jle min max = true) (hnn : toNumber v ≠ .nan) :
    inBounds min max ((numberT min max).parse v) = true ∧
    (jsTrunc min = min → jsTrunc max = max →
      inBounds min max ((intT min max).parse v) = true ∧
      jsTrunc ((intT min max).parse v) = (intT min max).parse v) := by
  have hminn : min ≠ .nan := jle_left_not_nan hb
  have hmaxn : max ≠ .nan := jle_right_not_nan hb
  have hminr : jle min min = true := jle_refl_of_not_nan hminn
  have hmaxr : jle max max = true := jle_refl_of_not_nan hmaxn
  cases h1 : jle (toNumber v) min with
  | true =>
    refine ⟨by simp [numberT, h1, inBounds, hminr, hb], ?_⟩
    intro hMin hMax
    refine ⟨by simp [intT, h1, hMin, inBounds, hminr, hb], ?_⟩
    simp [intT, h1, jsTrunc_idem]
  | false =>
    cases h2 : jge (toNumber v) max with
    | true =>
      refine ⟨by simp [numberT, h1, h2, inBounds, hb, hmaxr], ?_⟩
      intro hMin hMax
      refine ⟨by simp [intT, h1, h2, hMax, inBounds, hb, hmaxr], ?_⟩
      simp [intT, h1, h2, jsTrunc_idem]
    | false =>
      have h2' : jle max (toNumber v) = false := h2
      have hlt1 : jlt min (toNumber v) = true :=
        jlt_of_jle_eq_false hnn hminn h1
      have hle1 : jle min (toNumber v) = true := jle_of_jlt hlt1
      have hlt2 : jlt (toNumber v) max = true :=
        jlt_of_jle_eq_false hmaxn hnn h2'
      have hle2 : jle (toNumber v) max = true := jle_of_jlt hlt2
      refine ⟨by simp [numberT, h1, h2, inBounds, hle1, hle2], ?_⟩
      intro hMin hMax
      refine ⟨by simp [intT, h1, h2, inBounds, jle_jsTrunc hMin hle1,
        jsTrunc_jle hMax hle2], ?_⟩
      simp [intT, h1, h2, jsTrunc_idem]

/-- C8 counterexample: the malformed attribute text `"foo"` coerces to NaN
and both numeric parses return NaN, which lies inside no bounds — malformed
text is passed through, not clamped or coerced to the nearest valid
value. -/
theorem parse_total_clamps_counterexample :
    (numberT (.fin 0) (.fin 10)).parse (.str (.lit "foo")) = .nan ∧
    (intT (.fin 0) (.fin 10)).parse (.str (.lit "foo")) = .nan ∧
    inBounds (.fin 0) (.fin 10) .nan = false := by
  decide

/-- C8 witness: the out-of-range numeric input `99` is clamped into
`[0, 10]` by both parses. -/
theorem parse_total_clamps_witness :
    inBounds (.fin 0) (.fin 10)
      ((numberT (.fin 0) (.fin 10)).parse (.num (.fin 99))) = true ∧
    inBounds (.fin 0) (.fin 10)
      ((intT (.fin 0) (.fin 10)).parse (.num (.fin 99))) = true := by
  have h := parse_total_clamps (.fin 0) (.fin 10) (.num (.fin 99))
    (by decide) (by decide)
  exact ⟨h.1, (h.2 (by decide) (by decide)).1⟩

/-- C3 witness: writing `5` twice on the reflective `[0, 100]` number member
emits store, reflect and enqueue both times, while an attribute dispatch
with old text equal to new text `"5"` leaves only the original-callback
stage (here: empty). -/
theorem dedupe_asymmetry_witness :
    ((attrSetStep reflCfg (⟨.fin 5, [("value", .ofNum (.fin 5))]⟩,
        ⟨[], false⟩) 0 (.num (.fin 5))).2.2 =
      [.storeE (.fin 5), .setAttrE "value" (.ofNum (.fin 5)),
       .enqueueE 0]) ∧
    isOriginalCall (AccEff.callOriginal "x" (some (.lit "5"))
      (some (.lit "5"))) = true := by
  have h := dedupe_asymmetry reflCfg ⟨.fin 5, [("value", .ofNum (.fin 5))]⟩
    ⟨[], false⟩ 0 (.num (.fin 5)) (.num (.fin 5)) (.fin 5) rfl
    (by decide) (by decide)
  refine ⟨h.1.trans (by decide), h.2.2 ⟨true, ["x"]⟩ [] "x"
    (some (.lit "5")) _ (by decide)⟩

end WCTS
